import Mathlib

set_option maxRecDepth 8000

/-
  Verification development for the PTCGPSP automation engine.

  Shallow embedding of the screen-recognition layer (modules/image_search.py),
  the scenario runner and steps (modules/game_manager.py), and the worker
  retry loop (modules/gui.py, WorkerThread.task).

  Conventions of the embedding:
  - Machine images are pure data: a grayscale image is its dimensions plus a
    pixel function; only the h by w region is ever inspected.
  - cv2.matchTemplate with TM_CCOEFF_NORMED is abstracted as a kernel K that
    maps the window contents under the template and the template itself to a
    rational score; the real formula is a function of exactly these inputs,
    so every structural property of the matching code is preserved while the
    floating-point formula itself is left abstract.
  - One call of the match oracle q corresponds to one template_match call and
    hence to exactly one take_screenshot capture (image_search.py line 88).
  - Python values that can be None, False, True are embedded as Option Bool
    (none for None) or as the PyVal type for the scenario payloads.
  - Code that can raise is embedded in Except String.
  - Template paths are modelled as already-normalized absolute path strings,
    so os.path.abspath is the identity on them.
-/

namespace PTCGPSP

/-- A decoded single-channel (grayscale) image: height, width and pixel data
(image_search.py stores cv2.IMREAD_GRAYSCALE arrays). -/
structure GrayImage where
  h : Nat
  w : Nat
  px : Nat → Nat → Int

/-- An RGB capture as produced by screenshot.convert, pixel values per channel. -/
structure RGBImage where
  h : Nat
  w : Nat
  px : Nat → Nat → Int × Int × Int

/-- Abstraction of the TM_CCOEFF_NORMED correlation: a function of the window
contents under the template and of the template. -/
def ScoreKernel : Type := (Nat → Nat → Int) → GrayImage → ℚ

/-- The window of the capture whose top-left corner is at (x, y). -/
def window (img : GrayImage) (x y : Nat) : Nat → Nat → Int :=
  fun i j => img.px (y + i) (x + j)

/-- Correlation score of the template t against the capture img at top-left
position (x, y); cv2.matchTemplate evaluated at one grid point. -/
def scoreAt (K : ScoreKernel) (img t : GrayImage) (x y : Nat) : ℚ :=
  K (window img x y) t

/-- One row of the match grid: the positions (x, y) of fixed y, in increasing
x order, whose score reaches the threshold. -/
def rowMatches (K : ScoreKernel) (img t : GrayImage) (thr : ℚ) (y : Nat) :
    List (Nat × Nat) :=
  (List.range (img.w + 1 - t.w)).filterMap fun x =>
    if thr ≤ scoreAt K img t x y then some (x, y) else none

/-- The list matches = list(zip(*loc[::-1])) of image_search.py lines 106-108
and 181-182: all positions of the cv2.matchTemplate result grid with score at
least the threshold, as (x, y) pairs in row-major order, which is the order
np.where produces. -/
def matchList (K : ScoreKernel) (img t : GrayImage) (thr : ℚ) : List (Nat × Nat) :=
  (List.range (img.h + 1 - t.h)).flatMap (rowMatches K img t thr)

/-- template_match (image_search.py lines 77-118): none when the capture or the
template is unavailable or no location reaches the threshold; otherwise the
first matching location converted to the center point of the template.
The Python default threshold is 0.80. -/
def template_match (K : ScoreKernel) (screenshot template : Option GrayImage)
    (threshold : ℚ) : Option (Nat × Nat) :=
  match screenshot with
  | none => none
  | some img =>
    match template with
    | none => none
    | some t =>
      match matchList K img t threshold with
      | [] => none
      | (x, y) :: _ => some (x + t.w / 2, y + t.h / 2)

/-- count_template_matches (image_search.py lines 147-184): 0 when the capture
or the template is unavailable; otherwise the capture is cropped to its top
y_limit rows when y_limit is given and smaller than the capture height, and
the matches of the (cropped) capture are counted. The Python default threshold
is 0.95 and the default y_limit is None. -/
def count_template_matches (K : ScoreKernel) (screenshot template : Option GrayImage)
    (threshold : ℚ) (y_limit : Option Nat) : Nat :=
  match screenshot with
  | none => 0
  | some img =>
    match template with
    | none => 0
    | some t =>
      let arr :=
        match y_limit with
        | none => img
        | some yl => if yl < img.h then { img with h := yl } else img
      (matchList K arr t threshold).length

/-- Per-pixel test of pixel_search: every channel of the pixel is within
tolerance of the target color (np.abs(arr - target) <= tolerance, all axes). -/
def pixelMatches (c target : Int × Int × Int) (tol : Int) : Bool :=
  decide (|c.1 - target.1| ≤ tol) && decide (|c.2.1 - target.2.1| ≤ tol) &&
    decide (|c.2.2 - target.2.2| ≤ tol)

/-- np.column_stack(np.where(match_mask)): the (row, col) coordinates of the
matching pixels in row-major order (image_search.py line 212). -/
def pixelPositions (img : RGBImage) (target : Int × Int × Int) (tol : Int) :
    List (Nat × Nat) :=
  (List.range img.h).flatMap fun y =>
    (List.range img.w).filterMap fun x =>
      if pixelMatches (img.px y x) target tol then some (y, x) else none

/-- pixel_search (image_search.py lines 186-218). The source calls
screenshot.convert(\x22RGB\x22) on line 197 BEFORE the None check on line 199,
so a missing capture raises AttributeError; the embedding records this as an
error value. On a present capture it returns the first matching pixel as
(x, y), or none. -/
def pixel_search (screenshot : Option RGBImage) (target : Int × Int × Int)
    (tol : Int) : Except String (Option (Nat × Nat)) :=
  match screenshot with
  | none => Except.error "AttributeError: NoneType object has no attribute convert"
  | some img =>
    match pixelPositions img target tol with
    | [] => Except.ok none
    | (y, x) :: _ => Except.ok (some (x, y))

/-- State of the TemplateCache singleton (image_search.py lines 19-65): the
cache dictionary, embedded as an association list where an insert conses in
front, together with a count of the cv2.imread decode calls performed. -/
structure CacheState where
  cache : List (String × GrayImage)
  decodes : Nat

/-- TemplateCache.get_template (image_search.py lines 62-65). -/
def get_template (p : String) (s : CacheState) : Option GrayImage :=
  s.cache.lookup p

/-- TemplateCache.load_template (image_search.py lines 30-45): return the
cached entry when the key is present; otherwise decode through the filesystem
oracle fs (cv2.imread), cache and return the image on success, and on decode
failure log and return none leaving the cache unchanged. -/
def load_template (fs : String → Option GrayImage) (p : String) (s : CacheState) :
    CacheState × Option GrayImage :=
  match s.cache.lookup p with
  | some t => (s, some t)
  | none =>
    match fs p with
    | none => ({ s with decodes := s.decodes + 1 }, none)
    | some t => (⟨(p, t) :: s.cache, s.decodes + 1⟩, some t)

/-- The eligibility test of load_all_templates: filename.lower().endswith(.png). -/
def isPngName (f : String) : Bool := f.toLower.endsWith ".png"

/-- TemplateCache.load_all_templates (image_search.py lines 47-60): when the
template directory exists, load every eligible file in it through
load_template; the asyncio.gather of the per-file loads is embedded as a fold,
faithful to the effect of the loads on the cache. When the directory is
missing the function only logs and returns. -/
def load_all_templates (fs : String → Option GrayImage) (dirExists : Bool)
    (files : List String) (s : CacheState) : CacheState :=
  if dirExists then
    (files.filter isPngName).foldl (fun st f => (load_template fs f st).1) s
  else s

/-- The bounded poll loop of search_until_found (image_search.py lines
131-144), over a match oracle q giving the result of the i-th template_match
call. Arguments: current call index i and remaining attempts. Returns the
result together with the number of match (equivalently capture) calls made. -/
def sufAux (q : Nat → Option (Nat × Nat)) : Nat → Nat → Option (Nat × Nat) × Nat
  | _, 0 => (none, 0)
  | i, rem + 1 =>
    match q i with
    | some m => (some m, 1)
    | none =>
      let r := sufAux q (i + 1) rem
      (r.1, r.2 + 1)

/-- search_until_found (image_search.py lines 120-144): poll the matcher up to
max_attempts times (default 100), returning the first match or none on
exhaustion, never raising; paired with the number of capture calls made. -/
def search_until_found (q : Nat → Option (Nat × Nat)) (max_attempts : Nat) :
    Option (Nat × Nat) × Nat :=
  sufAux q 0 max_attempts

/-- Observable actions of one device worker while a scenario runs: match
(= capture) calls, taps issued, text inputs sent, and actions of a designated
later step (used to observe whether that step ran). -/
structure ActionTrace where
  matchCalls : Nat
  taps : Nat
  strings : Nat
  extra : Nat
deriving DecidableEq

/-- search_until_found threaded through an action trace: the oracle is indexed
by the global match-call counter. -/
def suf_st (q : Nat → Option (Nat × Nat)) (max_attempts : Nat) (s : ActionTrace) :
    Option (Nat × Nat) × ActionTrace :=
  let r := sufAux q s.matchCalls max_attempts
  (r.1, { s with matchCalls := s.matchCalls + r.2 })

/-- Python truthiness of an Option Bool value: None and False are falsy. -/
def pyTruthy : Option Bool → Bool
  | none => false
  | some b => b

/-- GameManager.find_and_tap (game_manager.py lines 578-591): poll for the
template; on exhaustion print and return False (some false); on a match issue
the requested taps when both coordinates are nonzero (if x and y) and fall off
the end of the function, returning None (none). -/
def find_and_tap (q : Nat → Option (Nat × Nat)) (tapsN : Nat) (max_attempts : Nat)
    (s : ActionTrace) : ActionTrace × Option Bool :=
  let r := suf_st q max_attempts s
  match r.1 with
  | none => (r.2, some false)
  | some (x, y) =>
    if x ≠ 0 ∧ y ≠ 0 then ({ r.2 with taps := r.2.taps + tapsN }, none)
    else (r.2, none)

/-- One scenario step as run by pack_gather: a state transformer returning the
truthiness of the step result. -/
def ScenarioStep : Type := ActionTrace → ActionTrace × Bool

/-- The step loop of GameManager.pack_gather (game_manager.py lines 57-65):
run the steps in order; as soon as a step returns a falsy result the whole
scenario attempt returns failure (None, embedded as false) immediately. -/
def run_steps (steps : List ScenarioStep) (s : ActionTrace) : ActionTrace × Bool :=
  match steps with
  | [] => (s, true)
  | f :: rest =>
    let r := f s
    if r.2 then run_steps rest r.1 else (r.1, false)

/-- GameManager.do_nickname (game_manager.py lines 181-193): four find_and_tap
calls whose results are all discarded, one direct tap, one text input; always
returns True. -/
def do_nickname (q : Nat → Option (Nat × Nat)) : ScenarioStep := fun s =>
  let r1 := find_and_tap q 1 100 s
  let s2 := { r1.1 with taps := r1.1.taps + 1 }
  let s3 := { s2 with strings := s2.strings + 1 }
  let r4 := find_and_tap q 1 100 s3
  let r5 := find_and_tap q 1 100 r4.1
  let r6 := find_and_tap q 1 100 r5.1
  (r6.1, true)

/-- GameManager.do_final_mission (game_manager.py lines 355-365): a checked
anchor poll (search_until_found guarded by if not) that fails the step on
exhaustion before any action runs, then five find_and_tap actions; returns
True when the anchor was found. -/
def do_final_mission (q : Nat → Option (Nat × Nat)) : ScenarioStep := fun s =>
  let r := suf_st q 100 s
  match r.1 with
  | none => (r.2, false)
  | some _ =>
    let a := find_and_tap q 1 100 r.2
    let b := find_and_tap q 1 100 a.1
    let c := find_and_tap q 1 100 b.1
    let d := find_and_tap q 1 100 c.1
    let e := find_and_tap q 1 100 d.1
    (e.1, true)

/-- A match oracle under which every poll comes back not-found. -/
def qNone : Nat → Option (Nat × Nat) := fun _ => none

/-- A preceding step A whose action is a single tap and which always succeeds. -/
def stepA : ScenarioStep := fun s => ({ s with taps := s.taps + 1 }, true)

/-- A following step C whose action increments the dedicated extra counter,
so that whether C ran is observable. -/
def stepC : ScenarioStep := fun s => ({ s with extra := s.extra + 1 }, true)

/-- A Python scenario result value as seen by WorkerThread.task: None, a
boolean (pack_open, friend_add, data_delete), or the (nickname, friend id)
pair of pack_gather. -/
inductive PyVal where
  | vNone : PyVal
  | vBool : Bool → PyVal
  | vPair : String → String → PyVal
deriving DecidableEq

/-- The test result is not None of gui.py line 155. -/
def isNotNone : PyVal → Bool
  | PyVal.vNone => false
  | _ => true

/-- Outcome of the worker retry loop: scenario attempts performed, the recorded
self.result payload if any, whether the terminal max-retry failure was
reached, and the number of 1-second backoff sleeps. -/
structure WorkerOutcome where
  attempts : Nat
  recorded : Option PyVal
  terminalFailed : Bool
  sleeps : Nat
deriving DecidableEq

/-- The while loop of WorkerThread.task (gui.py lines 133-179) with the
running flag held true: run the scenario; a result that is not None is
recorded and the loop breaks; a None result increments retry, sleeps 1 second
and retries while retry is below max_retry; when the retries are exhausted the
terminal failure message is emitted. The scenario oracle gives the result of
the i-th attempt. -/
def workerGo (scen : Nat → PyVal) (i : Nat) : Nat → WorkerOutcome
  | 0 => ⟨0, none, true, 0⟩
  | rem + 1 =>
    let r := scen i
    if isNotNone r then ⟨1, some r, false, 0⟩
    else
      let o := workerGo scen (i + 1) rem
      ⟨o.attempts + 1, o.recorded, o.terminalFailed, o.sleeps + 1⟩

/-- WorkerThread.task entry point: retry counter starts at 0 with max_retry
attempts available. -/
def worker_task (scen : Nat → PyVal) (max_retry : Nat) : WorkerOutcome :=
  workerGo scen 0 max_retry

/-- GameManager.pack_open (game_manager.py lines 73-79): returns the boolean
success status of do_pack_opening, in particular the Python value False, not
None, on a failed scenario attempt. -/
def pack_open (doPackOpeningOk : Bool) : PyVal :=
  if doPackOpeningOk then PyVal.vBool true else PyVal.vBool false

/-- GameManager.pack_gather result convention (game_manager.py lines 31-71):
None on a failed attempt, the (nickname, friend id) pair on success. -/
def pack_gather_result (ok : Bool) (nick fid : String) : PyVal :=
  if ok then PyVal.vPair nick fid else PyVal.vNone

/-- Phase of one worker relative to the gated clipboard region of
GameManager.do_copy_id (game_manager.py lines 367-379). -/
inductive GatePhase where
  | beforeGate : GatePhase
  | inGate : GatePhase
  | afterGate : GatePhase
deriving DecidableEq

/-- Joint state of two WorkerThreads on different devices. Each WorkerThread
constructs its own GameManager (gui.py lines 119-120), and GameManager
creates a fresh asyncio.Lock per instance (game_manager.py line 17), so each
worker i has its own gate lock with state locki. -/
structure ClipboardSystem where
  phase1 : GatePhase
  lock1 : Bool
  phase2 : GatePhase
  lock2 : Bool
deriving DecidableEq

/-- Interleaving semantics of the two do_copy_id executions: worker i enters
its gated region by acquiring its own lock (async with self.lock) when that
lock is free, and leaves releasing it. No transition of one worker inspects
the state of the other worker, because no synchronization object is shared
between the two GameManager instances. -/
inductive CopyIdStep : ClipboardSystem → ClipboardSystem → Prop where
  | acquire1 (s : ClipboardSystem) (h1 : s.phase1 = GatePhase.beforeGate)
      (h2 : s.lock1 = false) :
      CopyIdStep s { s with phase1 := GatePhase.inGate, lock1 := true }
  | release1 (s : ClipboardSystem) (h : s.phase1 = GatePhase.inGate) :
      CopyIdStep s { s with phase1 := GatePhase.afterGate, lock1 := false }
  | acquire2 (s : ClipboardSystem) (h1 : s.phase2 = GatePhase.beforeGate)
      (h2 : s.lock2 = false) :
      CopyIdStep s { s with phase2 := GatePhase.inGate, lock2 := true }
  | release2 (s : ClipboardSystem) (h : s.phase2 = GatePhase.inGate) :
      CopyIdStep s { s with phase2 := GatePhase.afterGate, lock2 := false }

/-- States reachable by interleaving the two workers. -/
def gateReachable : ClipboardSystem → ClipboardSystem → Prop :=
  Relation.ReflTransGen CopyIdStep

/-- Initial state: both workers before their gated step, both private locks free. -/
def initCopyId : ClipboardSystem :=
  ⟨GatePhase.beforeGate, false, GatePhase.beforeGate, false⟩

/-- The state in which both workers are inside their gated clipboard critical
sections at the same instant. -/
def bothInGate : ClipboardSystem :=
  ⟨GatePhase.inGate, true, GatePhase.inGate, true⟩

/-- Validity of a match-grid position for template t over capture img: the
position indexes the cv2.matchTemplate result grid. -/
def validPos (img t : GrayImage) (p : Nat × Nat) : Prop :=
  p.1 < img.w + 1 - t.w ∧ p.2 < img.h + 1 - t.h

/-- Row-major (np.where) order on positions: strictly earlier row, or same
row and strictly smaller column. -/
def lexLT (p q : Nat × Nat) : Prop :=
  p.2 < q.2 ∨ (p.2 = q.2 ∧ p.1 < q.1)

/-- The property of being the first location of the capture, in row-major
order, whose score reaches the threshold. -/
def IsFirstMatch (K : ScoreKernel) (img t : GrayImage) (thr : ℚ) (p : Nat × Nat) :
    Prop :=
  validPos img t p ∧ thr ≤ scoreAt K img t p.1 p.2 ∧
    ∀ q, validPos img t q → thr ≤ scoreAt K img t q.1 q.2 → p = q ∨ lexLT p q

/-- The count claimed by the specification sentence for C6, taken literally:
all locations of the FULL capture grid with score at least the threshold whose
top-left position lies in the top y_limit rows. -/
def claimTopRowsCount (K : ScoreKernel) (img t : GrayImage) (thr : ℚ) (yl : Nat) :
    Nat :=
  ((Finset.range (img.w + 1 - t.w) ×ˢ Finset.range (img.h + 1 - t.h)).filter
    fun p => p.2 < yl ∧ thr ≤ scoreAt K img t p.1 p.2).card

/-- Effective search height: the capture height, limited to y_limit when given. -/
def effHeight (img : GrayImage) (y_limit : Option Nat) : Nat :=
  match y_limit with
  | none => img.h
  | some yl => min yl img.h

/-- The amended count: all locations with score at least the threshold whose
template window lies entirely within the top min(y_limit, height) rows of the
capture, the whole capture when y_limit is absent. -/
def windowCount (K : ScoreKernel) (img t : GrayImage) (thr : ℚ)
    (y_limit : Option Nat) : Nat :=
  ((Finset.range (img.w + 1 - t.w) ×ˢ
      Finset.range (effHeight img y_limit + 1 - t.h)).filter
    fun p => thr ≤ scoreAt K img t p.1 p.2).card

/-- Concrete score kernel for counterexamples: every position scores 1. -/
def kernelOne : ScoreKernel := fun _ _ => 1

/-- A 4 by 1 capture. -/
def img4x1 : GrayImage := ⟨4, 1, fun _ _ => 0⟩

/-- A 2 by 1 template. -/
def tmpl2x1 : GrayImage := ⟨2, 1, fun _ _ => 0⟩

/-- A match oracle that misses on the first poll and hits on the second. -/
def qFoundAt2 : Nat → Option (Nat × Nat) := fun i => if i = 1 then some (5, 7) else none

/-- A concrete 1 by 1 template image. -/
def imgUnit : GrayImage := ⟨1, 1, fun _ _ => 0⟩

/-- A filesystem oracle on which every decode succeeds. -/
def fsUnit : String → Option GrayImage := fun _ => some imgUnit

/-- The empty template cache. -/
def emptyCache : CacheState := ⟨[], 0⟩

/-- Polling an all-none stretch of the oracle exhausts the attempt budget and
makes exactly that many calls. -/
theorem sufAux_exhaust (q : Nat → Option (Nat × Nat)) :
    ∀ (i rem : Nat), (∀ j, j < rem → q (i + j) = none) →
      sufAux q i rem = (none, rem) := by
  intro i rem
  induction rem generalizing i with
  | zero => intro _; rfl
  | succ r ih =>
    intro h
    have h0 : q i = none := by simpa using h 0 (by omega)
    have hr : sufAux q (i + 1) r = (none, r) := by
      refine ih (i + 1) (fun j hj => ?_)
      have := h (j + 1) (by omega)
      rwa [show i + (j + 1) = i + 1 + j by omega] at this
    simp [sufAux, h0, hr]

/-- Polling an oracle that first hits on its k-th consulted index returns that
hit after exactly k calls, provided k is within the attempt budget. -/
theorem sufAux_found (q : Nat → Option (Nat × Nat)) :
    ∀ (k i rem : Nat) (m : Nat × Nat), 0 < k → k ≤ rem →
      (∀ j, j < k - 1 → q (i + j) = none) → q (i + (k - 1)) = some m →
      sufAux q i rem = (some m, k) := by
  intro k
  induction k with
  | zero => intro i rem m h0; exact absurd h0 (lt_irrefl 0)
  | succ k ih =>
    intro i rem m _ hle hnone hfound
    obtain ⟨r, rfl⟩ : ∃ r, rem = r + 1 := ⟨rem - 1, by omega⟩
    cases k with
    | zero =>
      have h0 : q i = some m := by simpa using hfound
      simp [sufAux, h0]
    | succ k2 =>
      have h0 : q i = none := by simpa using hnone 0 (by omega)
      have hrec : sufAux q (i + 1) r = (some m, k2 + 1) := by
        refine ih (i + 1) r m (by omega) (by omega) (fun j hj => ?_) ?_
        · have := hnone (j + 1) (by omega)
          rwa [show i + (j + 1) = i + 1 + j by omega] at this
        · rwa [show i + (k2 + 1 + 1 - 1) = i + 1 + (k2 + 1 - 1) by omega] at hfound
      simp [sufAux, h0, hrec]

/-- C5: for every k between 1 and the attempt budget, if the per-iteration
match query misses on iterations 1..k-1 and hits on iteration k, then
search_until_found returns that match after exactly k capture calls; and if
every iteration within the budget misses, it returns none after exactly
max_attempts capture calls — in both cases as an ordinary return value,
never an exception. -/
theorem search_until_found_poll_spec (q : Nat → Option (Nat × Nat))
    (max_attempts : Nat) :
    (∀ k m, 0 < k → k ≤ max_attempts → (∀ j, j < k - 1 → q j = none) →
        q (k - 1) = some m → search_until_found q max_attempts = (some m, k))
    ∧ ((∀ j, j < max_attempts → q j = none) →
        search_until_found q max_attempts = (none, max_attempts)) := by
  constructor
  · intro k m h1 h2 h3 h4
    exact sufAux_found q k 0 max_attempts m h1 h2
      (fun j hj => by simpa using h3 j hj) (by simpa using h4)
  · intro h
    exact sufAux_exhaust q 0 max_attempts (fun j hj => by simpa using h j hj)

/-- Witness for C5: under an oracle that hits on the second poll, three
allowed attempts return the match after two calls; under the all-none oracle
they return none after three calls. -/
theorem search_until_found_poll_spec_witness :
    search_until_found qFoundAt2 3 = (some (5, 7), 2)
    ∧ search_until_found qNone 3 = (none, 3) := by
  constructor
  · refine (search_until_found_poll_spec qFoundAt2 3).1 2 (5, 7) (by omega) (by omega)
      (fun j hj => ?_) rfl
    have : j = 0 := by omega
    subst this
    rfl
  · exact (search_until_found_poll_spec qNone 3).2 (fun _ _ => rfl)

/-- C10: the returned value of find_and_tap is False (some false) exactly when
the underlying poll exhausts, and None (none) whenever the template is found,
so the Python truthiness of the result is always false and callers cannot
distinguish success from exhaustion by it. -/
theorem find_and_tap_truthiness (q : Nat → Option (Nat × Nat))
    (tapsN max_attempts : Nat) (s : ActionTrace) :
    (find_and_tap q tapsN max_attempts s).2
        = (if (suf_st q max_attempts s).1.isNone then some false else none)
    ∧ pyTruthy (find_and_tap q tapsN max_attempts s).2 = false := by
  cases h : (suf_st q max_attempts s).1 with
  | none => simp [find_and_tap, h, pyTruthy]
  | some m =>
    obtain ⟨x, y⟩ := m
    by_cases hxy : x ≠ 0 ∧ y ≠ 0 <;> simp [find_and_tap, h, hxy, pyTruthy]

/-- C3 failing evaluation: when the capture is unavailable, pixel_search does
not return a negative result; it raises, because screenshot.convert is called
before the None check (image_search.py lines 196-201). -/
theorem pixel_search_raises_on_missing_capture :
    pixel_search none (0, 0, 0) 10
      = Except.error "AttributeError: NoneType object has no attribute convert" := rfl

/-- C4 failing evaluation: with a retry budget of 3, a pack_open scenario that
always fails returns the Python value False, which is not None, so the worker
loop records it as the result and stops after a single attempt with no backoff
sleep and no terminal failure — whereas a pack_gather scenario that always
fails (returning None) is retried exactly 3 times, sleeps after each failure
and reaches the terminal failed state. -/
theorem worker_task_bool_failure_stops_retry :
    worker_task (fun _ => pack_open false) 3
        = ⟨1, some (PyVal.vBool false), false, 0⟩
    ∧ worker_task (fun _ => PyVal.vNone) 3 = ⟨3, none, true, 3⟩ :=
  ⟨rfl, rfl⟩

/-- C1 failing evaluation: from the initial state, the interleaving in which
worker 1 acquires its own gate lock and then worker 2 acquires its own gate
lock reaches the state in which both workers are inside their gated clipboard
critical sections at once: the per-instance locks provide no cross-device
mutual exclusion. -/
theorem clipboard_gate_overlap_reachable : gateReachable initCopyId bothInGate := by
  refine Relation.ReflTransGen.head (CopyIdStep.acquire1 initCopyId rfl rfl)
    (Relation.ReflTransGen.single ?_)
  exact CopyIdStep.acquire2 _ rfl rfl

/-- C2 counterexample: in the scenario [A, do_nickname, C] under an oracle on
which every anchor poll of step B (do_nickname) exhausts its 100 attempts
(4 polls, 400 match calls, no tap from any of them), the scenario attempt
nevertheless succeeds, step B returns True, and step C runs (its extra
counter reaches 1) — contradicting the claim that an exhausted anchor poll
fails the step and the whole scenario attempt with no later step running. -/
theorem scenario_runs_after_ignored_exhaustion :
    run_steps [stepA, do_nickname qNone, stepC] ⟨0, 0, 0, 0⟩
      = (⟨400, 2, 1, 1⟩, true) := by
  decide

/-- Splitting a step list: the steps after a prefix run only when the whole
prefix succeeded. -/
theorem run_steps_append (l₁ l₂ : List ScenarioStep) (s : ActionTrace) :
    run_steps (l₁ ++ l₂) s =
      (if (run_steps l₁ s).2 then run_steps l₂ (run_steps l₁ s).1
        else run_steps l₁ s) := by
  induction l₁ generalizing s with
  | nil => simp [run_steps]
  | cons f rest ih =>
    simp only [List.cons_append, run_steps]
    by_cases h : (f s).2 <;> simp [h, ih]

/-- C2 amended: a step fails the scenario attempt immediately only when the
step itself returns a falsy result, which happens when a checked anchor poll
(a search_until_found whose result the step tests, as in do_final_mission)
exhausts its bounded attempts: the step then fails before any of its actions
run, and the whole scenario attempt returns failure at once, so no later step
runs. Anchor polls issued through find_and_tap with the result discarded (as
throughout do_nickname) do not fail the step on exhaustion. -/
theorem checked_anchor_exhaustion_fails_scenario
    (q : Nat → Option (Nat × Nat)) (pre post : List ScenarioStep)
    (s s₁ : ActionTrace)
    (hpre : run_steps pre s = (s₁, true))
    (hexh : ∀ j, j < 100 → q (s₁.matchCalls + j) = none) :
    run_steps (pre ++ do_final_mission q :: post) s
      = ({ s₁ with matchCalls := s₁.matchCalls + 100 }, false) := by
  have hsuf : sufAux q s₁.matchCalls 100 = (none, 100) :=
    sufAux_exhaust q s₁.matchCalls 100 hexh
  rw [run_steps_append, hpre]
  simp [run_steps, do_final_mission, suf_st, hsuf]

/-- Witness for the amended C2: with an all-none oracle, a one-tap step A and
an observable step C, the scenario [A, do_final_mission, C] fails after the
100 anchor polls of do_final_mission with no action of that step and no
action of C performed. -/
theorem checked_anchor_exhaustion_fails_scenario_witness :
    run_steps ([stepA] ++ do_final_mission qNone :: [stepC]) ⟨0, 0, 0, 0⟩
      = (⟨100, 1, 0, 0⟩, false) :=
  checked_anchor_exhaustion_fails_scenario qNone [stepA] [stepC]
    ⟨0, 0, 0, 0⟩ ⟨0, 1, 0, 0⟩ rfl (fun _ _ => rfl)

/-- C8: a load of an already-cached key is a no-op: after a first load of key
p returned an image t, a second load of p performs no decode, leaves the
cache state entirely unchanged and returns the cached entry t, and
get_template of p returns that same cached image. -/
theorem load_template_idempotent (fs : String → Option GrayImage) (p : String)
    (s₀ : CacheState) (t : GrayImage)
    (h : (load_template fs p s₀).2 = some t) :
    load_template fs p (load_template fs p s₀).1
        = ((load_template fs p s₀).1, some t)
    ∧ get_template p (load_template fs p s₀).1 = some t := by
  have hget : get_template p (load_template fs p s₀).1 = some t := by
    unfold load_template at h ⊢
    unfold get_template
    cases hl : s₀.cache.lookup p with
    | some u =>
      rw [hl] at h
      simp only at h
      simp only [hl]
      exact h
    | none =>
      rw [hl] at h
      cases hf : fs p with
      | none => rw [hf] at h; simp at h
      | some u =>
        rw [hf] at h
        simp only at h
        have hu : u = t := by simpa using h
        subst hu
        simp [List.lookup]
  refine ⟨?_, hget⟩
  unfold get_template at hget
  generalize (load_template fs p s₀).1 = s₁ at hget ⊢
  unfold load_template
  rw [hget]

/-- Witness for C8: loading the same key twice on an always-decoding
filesystem from the empty cache. -/
theorem load_template_idempotent_witness :
    load_template fsUnit "a.png" (load_template fsUnit "a.png" emptyCache).1
        = ((load_template fsUnit "a.png" emptyCache).1, some imgUnit)
    ∧ get_template "a.png" (load_template fsUnit "a.png" emptyCache).1
        = some imgUnit :=
  load_template_idempotent fsUnit "a.png" emptyCache imgUnit rfl

/-- Effect of one load_template on a later lookup: the loaded key gains the
decoded image unless it was already cached; every other key is untouched. -/
theorem get_template_after_load (fs : String → Option GrayImage) (f k : String)
    (s : CacheState) :
    get_template k (load_template fs f s).1
      = if k = f then
          (match get_template f s with
            | some t => some t
            | none => fs f)
        else get_template k s := by
  unfold load_template get_template
  by_cases hkf : k = f
  · subst hkf
    cases hl : s.cache.lookup k with
    | some t => simp [hl]
    | none =>
      cases hf : fs k with
      | none => simp [hl, hf]
      | some t => simp [hl, hf, List.lookup]
  · rw [if_neg hkf]
    cases hl : s.cache.lookup f with
    | some t => simp [hl]
    | none =>
      cases hf : fs f with
      | none => simp [hl, hf]
      | some t =>
        simp only [hl, hf]
        simp [List.lookup, beq_eq_false_iff_ne.mpr hkf]

/-- Folding load_template over a file list: a key ends up cached with its
previously cached image, or else with its decode result when it occurs in the
list; decode failures leave exactly their own key absent. -/
theorem get_template_after_fold (fs : String → Option GrayImage)
    (l : List String) :
    ∀ (s : CacheState) (k : String),
      get_template k (l.foldl (fun st f => (load_template fs f st).1) s)
        = (match get_template k s with
            | some t => some t
            | none => if k ∈ l then fs k else none) := by
  induction l with
  | nil =>
    intro s k
    cases h : get_template k s <;> simp [h]
  | cons f rest ih =>
    intro s k
    rw [List.foldl_cons, ih]
    rw [get_template_after_load]
    by_cases hkf : k = f
    · subst hkf
      rw [if_pos rfl]
      cases hs : get_template k s with
      | some t => simp [hs]
      | none =>
        cases hf : fs k with
        | none =>
          simp only [hs, hf, List.mem_cons, true_or, if_true, eq_self_iff_true]
          split <;> simp_all
        | some t => simp [hs, hf]
    · rw [if_neg hkf]
      cases hs : get_template k s with
      | some t => simp [hs]
      | none =>
        simp only [hs, List.mem_cons]
        have : (k = f ∨ k ∈ rest) ↔ k ∈ rest := by
          constructor
          · rintro (h | h)
            · exact absurd h hkf
            · exact h
          · exact Or.inr
        rw [if_congr this rfl rfl]

/-- C9: with the template directory present, bulk loading never aborts and
leaves each key cached exactly when it was already cached (keeping the old
image) or it names an eligible .png file whose decode succeeds; a key whose
decode fails is the only one excluded, with every other eligible file still
loaded. -/
theorem load_all_templates_isolates_failures (fs : String → Option GrayImage)
    (files : List String) (s : CacheState) (k : String) :
    get_template k (load_all_templates fs true files s)
      = (match get_template k s with
          | some t => some t
          | none => if k ∈ files.filter isPngName then fs k else none) := by
  unfold load_all_templates
  rw [if_pos rfl]
  exact get_template_after_fold fs (files.filter isPngName) s k

/-- Membership in one row of the match grid. -/
theorem mem_row_aux {K : ScoreKernel} {img t : GrayImage} {thr : ℚ} {y : Nat}
    {m : Nat} {p : Nat × Nat} :
    (p ∈ (List.range m).filterMap fun x =>
        if thr ≤ scoreAt K img t x y then some (x, y) else none)
      ↔ p.1 < m ∧ p.2 = y ∧ thr ≤ scoreAt K img t p.1 y := by
  simp only [List.mem_filterMap, List.mem_range]
  constructor
  · rintro ⟨x0, hx0, hif⟩
    by_cases hc : thr ≤ scoreAt K img t x0 y
    · rw [if_pos hc] at hif
      cases hif
      exact ⟨hx0, rfl, hc⟩
    · rw [if_neg hc] at hif
      exact absurd hif (by simp)
  · rintro ⟨hx, hy, hs⟩
    obtain ⟨x, y0⟩ := p
    simp only at hx hy hs
    subst hy
    exact ⟨x, hx, by rw [if_pos hs]⟩

/-- Each row of the match grid is sorted in row-major order. -/
theorem pairwise_row_aux (K : ScoreKernel) (img t : GrayImage) (thr : ℚ)
    (y : Nat) :
    ∀ m, List.Pairwise lexLT ((List.range m).filterMap fun x =>
        if thr ≤ scoreAt K img t x y then some (x, y) else none) := by
  intro m
  induction m with
  | zero => simp
  | succ m ih =>
    rw [List.range_succ, List.filterMap_append]
    rw [List.pairwise_append]
    refine ⟨ih, ?_, ?_⟩
    · by_cases hc : thr ≤ scoreAt K img t m y <;> simp [hc]
    · intro a ha b hb
      have ha2 := mem_row_aux.mp ha
      have hb2 : b = (m, y) := by
        by_cases hc : thr ≤ scoreAt K img t m y
        · simp only [List.filterMap_cons, if_pos hc, List.filterMap_nil] at hb
          simpa using hb
        · simp [List.filterMap_cons, if_neg hc] at hb
      subst hb2
      right
      exact ⟨by omega, by omega⟩

/-- The concatenation of the first n rows of the match grid is sorted in
row-major order. -/
theorem pairwise_rows_aux (K : ScoreKernel) (img t : GrayImage) (thr : ℚ) :
    ∀ n, List.Pairwise lexLT
      ((List.range n).flatMap (rowMatches K img t thr)) := by
  intro n
  induction n with
  | zero => simp
  | succ n ih =>
    rw [List.range_succ, List.flatMap_append]
    rw [List.pairwise_append]
    refine ⟨ih, ?_, ?_⟩
    · simp only [List.flatMap_cons, List.flatMap_nil, List.append_nil]
      exact pairwise_row_aux K img t thr n _
    · intro a ha b hb
      simp only [List.flatMap_cons, List.flatMap_nil, List.append_nil] at hb
      rw [List.mem_flatMap] at ha
      obtain ⟨y0, hy0, ha2⟩ := ha
      rw [List.mem_range] at hy0
      have ha3 := mem_row_aux.mp ha2
      have hb3 := mem_row_aux.mp hb
      left
      omega

/-- The full match list is sorted in row-major order. -/
theorem matchList_pairwise (K : ScoreKernel) (img t : GrayImage) (thr : ℚ) :
    List.Pairwise lexLT (matchList K img t thr) :=
  pairwise_rows_aux K img t thr (img.h + 1 - t.h)

/-- Membership in the match list is exactly validity of the position plus the
score reaching the threshold. -/
theorem mem_matchList {K : ScoreKernel} {img t : GrayImage} {thr : ℚ}
    {p : Nat × Nat} :
    p ∈ matchList K img t thr ↔
      p.1 < img.w + 1 - t.w ∧ p.2 < img.h + 1 - t.h
        ∧ thr ≤ scoreAt K img t p.1 p.2 := by
  unfold matchList rowMatches
  rw [List.mem_flatMap]
  constructor
  · rintro ⟨y0, hy0, hp⟩
    rw [List.mem_range] at hy0
    have h2 := mem_row_aux.mp hp
    refine ⟨h2.1, ?_, ?_⟩
    · omega
    · rw [h2.2.1]
      exact h2.2.2
  · rintro ⟨hx, hy, hs⟩
    refine ⟨p.2, List.mem_range.mpr hy, mem_row_aux.mpr ⟨hx, rfl, hs⟩⟩

/-- The match list has no duplicate positions. -/
theorem matchList_nodup (K : ScoreKernel) (img t : GrayImage) (thr : ℚ) :
    (matchList K img t thr).Nodup := by
  refine (matchList_pairwise K img t thr).imp ?_
  intro a b hab
  intro heq
  subst heq
  unfold lexLT at hab
  omega

/-- The length of the match list counts exactly the set of positions with
score at least the threshold. -/
theorem length_matchList (K : ScoreKernel) (img t : GrayImage) (thr : ℚ) :
    (matchList K img t thr).length
      = ((Finset.range (img.w + 1 - t.w) ×ˢ Finset.range (img.h + 1 - t.h)).filter
          fun p => thr ≤ scoreAt K img t p.1 p.2).card := by
  rw [← List.toFinset_card_of_nodup (matchList_nodup K img t thr)]
  congr 1
  apply Finset.ext
  intro p
  rw [List.mem_toFinset, mem_matchList, Finset.mem_filter, Finset.mem_product,
    Finset.mem_range, Finset.mem_range]
  tauto

/-- C6 amended: count_template_matches counts exactly the locations with
score at least the threshold whose template window lies entirely within the
top min(y_limit, height) rows of the capture — the whole capture when y_limit
is absent or not smaller than the capture height. -/
theorem count_template_matches_window_spec (K : ScoreKernel) (img t : GrayImage)
    (thr : ℚ) (y_limit : Option Nat) :
    count_template_matches K (some img) (some t) thr y_limit
      = windowCount K img t thr y_limit := by
  have hcrop : ∀ yl, scoreAt K { img with h := yl } t = scoreAt K img t :=
    fun _ => rfl
  cases y_limit with
  | none =>
    simpa [count_template_matches, windowCount, effHeight]
      using length_matchList K img t thr
  | some yl =>
    by_cases h : yl < img.h
    · have hlen := length_matchList K { img with h := yl } t thr
      rw [hcrop yl] at hlen
      simpa [count_template_matches, windowCount, effHeight, h,
        min_eq_left (le_of_lt h)] using hlen
    · have hlen := length_matchList K img t thr
      simpa [count_template_matches, windowCount, effHeight, h,
        min_eq_right (le_of_not_lt h)] using hlen

/-- C6 counterexample: on a 4 by 1 capture with a 2 by 1 template where every
grid position scores 1 at threshold 1 and y_limit 3, the code counts the 2
positions whose window fits in the cropped top 3 rows, while the claim as
stated counts the 3 full-grid positions lying in the top 3 rows. -/
theorem count_matches_top_rows_counterexample :
    count_template_matches kernelOne (some img4x1) (some tmpl2x1) 1 (some 3) = 2
    ∧ claimTopRowsCount kernelOne img4x1 tmpl2x1 1 3 = 3 := by
  constructor <;> decide

/-- C7: template_match on a present capture and cached template returns none
exactly when no grid position reaches the threshold, and otherwise returns
the first matching position in row-major order converted to the center point
of the template (top-left plus half the template width and height). -/
theorem template_match_first_match_spec (K : ScoreKernel) (img t : GrayImage)
    (thr : ℚ) :
    match template_match K (some img) (some t) thr with
    | none => ∀ p, validPos img t p → scoreAt K img t p.1 p.2 < thr
    | some c => ∃ p, IsFirstMatch K img t thr p
        ∧ c = (p.1 + t.w / 2, p.2 + t.h / 2) := by
  cases hml : matchList K img t thr with
  | nil =>
    have hv : template_match K (some img) (some t) thr = none := by
      simp [template_match, hml]
    rw [hv]
    intro p hp
    by_contra hc
    push_neg at hc
    have hmem : p ∈ matchList K img t thr :=
      mem_matchList.mpr ⟨hp.1, hp.2, hc⟩
    rw [hml] at hmem
    exact absurd hmem (List.not_mem_nil p)
  | cons hd tl =>
    obtain ⟨x, y⟩ := hd
    have hv : template_match K (some img) (some t) thr
        = some (x + t.w / 2, y + t.h / 2) := by
      simp [template_match, hml]
    rw [hv]
    have hmem : (x, y) ∈ matchList K img t thr := by
      rw [hml]
      exact List.mem_cons_self (x, y) tl
    have hchar := mem_matchList.mp hmem
    refine ⟨(x, y), ⟨⟨hchar.1, hchar.2.1⟩, hchar.2.2, ?_⟩, rfl⟩
    intro q hq hs
    have hqmem : q ∈ matchList K img t thr :=
      mem_matchList.mpr ⟨hq.1, hq.2, hs⟩
    rw [hml] at hqmem
    rcases List.mem_cons.mp hqmem with hcase | hcase
    · left
      exact hcase.symm
    · right
      have hpw := matchList_pairwise K img t thr
      rw [hml] at hpw
      exact (List.pairwise_cons.mp hpw).1 q hcase

end PTCGPSP
